import Mathlib

/-!
Shallow embedding of the todo-list HTTP service in server.js.

Conventions of the embedding:
* JS strings are Lean `String`; the `.length` property of JS counts UTF-16
  code units, modelled by `utf16Length`.
* JS `String.prototype.trim` is modelled by `jsTrim` over the common
  whitespace characters.
* Timestamps (`new Date().toISOString()`, compared via `new Date(x) - new Date(y)`)
  are modelled as natural numbers (milliseconds); the ISO rendering is an
  order-isomorphism onto these for the relevant range.
* `parseInt(s)` is modelled by `parseIntJS`, returning `none` for NaN;
  a record lookup `t.id === parseInt(s)` is `matchesId`, and `none`
  (NaN) matches no record, as NaN compares unequal to every number.
* Request bodies and query strings carry optional fields; `none` models an
  absent (undefined) field.
* Each handler is a pure function from its inputs and the store state
  `(todos, nextId)` to a result and (for mutators) a new state; the JS code
  mutates the globals only after all validation, which the embedding mirrors
  by returning `Except.error` before constructing any new state.
-/

namespace TodoServer

/-- Priority values of a todo record; stored values are always one of the
three enum values because both Create and Update validate before storing. -/
inductive Priority
  | low
  | medium
  | high
deriving DecidableEq, Repr

/-- String form of a priority, as stored in the JS records. -/
def Priority.toStr : Priority → String
  | .low => "low"
  | .medium => "medium"
  | .high => "high"

/-- Parse a raw string as a priority; agrees with the JS check
`['low', 'medium', 'high'].includes(p)` (isSome exactly on those three). -/
def Priority.ofStr? (s : String) : Option Priority :=
  if s = "low" then some .low
  else if s = "medium" then some .medium
  else if s = "high" then some .high
  else none

/-- Sort weight used by the list handler: `{ high: 3, medium: 2, low: 1 }`. -/
def Priority.weight : Priority → Nat
  | .high => 3
  | .medium => 2
  | .low => 1

/-- One todo record, as appended to the `todos` array in server.js. -/
structure Todo where
  id : Nat
  text : String
  completed : Bool
  priority : Priority
  createdAt : Nat
  updatedAt : Nat
deriving DecidableEq, Repr

/-- The mutable globals of server.js: the `todos` array and `nextId`. -/
structure StoreState where
  todos : List Todo
  nextId : Nat
deriving DecidableEq, Repr

/-- Whitespace for the purposes of JS `trim()` and `parseInt` (ASCII part). -/
def isJsSpace (c : Char) : Bool :=
  c == ' ' || c == '\t' || c == '\n' || c == '\r' || c == '\x0b' || c == '\x0c'

/-- JS `String.prototype.trim`: drop whitespace from both ends. -/
def jsTrim (s : String) : String :=
  String.mk (((s.toList.dropWhile isJsSpace).reverse.dropWhile isJsSpace).reverse)

/-- JS `String.prototype.length`: number of UTF-16 code units. -/
def utf16Length (s : String) : Nat :=
  (s.toList.map (fun c => if c.toNat < 65536 then 1 else 2)).sum

/-- JS `String.prototype.toLowerCase` (ASCII part, all the data needs). -/
def jsToLower (s : String) : String := s.toLower

/-- JS `hay.includes(needle)`: substring containment. -/
def jsIncludes (hay needle : String) : Bool :=
  needle == "" || decide (2 ≤ (hay.splitOn needle).length)

/-- Decimal digit value of a character, if any. -/
def decVal? (c : Char) : Option Nat :=
  if c.isDigit then some (c.toNat - 48) else none

/-- Hexadecimal digit value of a character, if any. -/
def hexVal? (c : Char) : Option Nat :=
  if c.isDigit then some (c.toNat - 48)
  else if 'a' ≤ c && c ≤ 'f' then some (c.toNat - 87)
  else if 'A' ≤ c && c ≤ 'F' then some (c.toNat - 55)
  else none

/-- Accumulate the value of the longest digit prefix. -/
def parseDigits (val? : Char → Option Nat) (radix : Nat) : List Char → Nat → Nat
  | [], acc => acc
  | c :: cs, acc =>
    match val? c with
    | some v => parseDigits val? radix cs (acc * radix + v)
    | none => acc

/-- JS `parseInt(s)` with no radix argument: skip leading whitespace, read an
optional sign, detect a `0x`/`0X` prefix (radix 16), then take the longest
digit prefix; `none` models NaN (no digits at all). -/
def parseIntJS (s : String) : Option Int :=
  let cs0 := s.toList.dropWhile isJsSpace
  let sign : Int := match cs0 with | '-' :: _ => -1 | _ => 1
  let cs1 := match cs0 with
    | '-' :: r => r
    | '+' :: r => r
    | _ => cs0
  let hex : Bool := match cs1 with
    | '0' :: c :: _ => c == 'x' || c == 'X'
    | _ => false
  let cs2 := if hex then cs1.drop 2 else cs1
  let val? := if hex then hexVal? else decVal?
  let radix := if hex then 16 else 10
  match cs2 with
  | c :: _ =>
    if (val? c).isSome then some (sign * (parseDigits val? radix cs2 0 : Nat)) else none
  | [] => none

/-- The JS comparison `t.id === parseInt(req.params.id)`: a NaN id (modelled
`none`) matches no record, since NaN is unequal to every number. -/
def matchesId (idOpt : Option Int) (t : Todo) : Bool :=
  idOpt == some (t.id : Int)

/-- The seeded collection and counter at process start (server.js lines
30 to 58); all startup timestamps are taken at one instant `t0`. -/
def initialState (t0 : Nat) : StoreState :=
  { todos :=
      [ { id := 1, text := "Node.js 배우기", completed := false, priority := .high,
          createdAt := t0, updatedAt := t0 },
        { id := 2, text := "Express 서버 만들기", completed := true, priority := .medium,
          createdAt := t0, updatedAt := t0 },
        { id := 3, text := "REST API 구현하기", completed := false, priority := .high,
          createdAt := t0, updatedAt := t0 } ],
    nextId := 4 }

/-- Error taxonomy of the handlers: 400 invalid input, 404 not found. -/
inductive ApiError
  | InvalidInput
  | NotFound
deriving DecidableEq, Repr

/-- Query parameters of the list handler; each is absent or a raw string. -/
structure ListQuery where
  completed : Option String
  priority : Option String
  search : Option String
deriving DecidableEq, Repr

/-- The three conjunctive filters of the list handler, in source order:
completed (`completed === 'true'`), priority (applied when the raw value is
truthy and not `all`), search (applied when truthy; case-insensitive
substring). -/
def applyFilters (q : ListQuery) (todos : List Todo) : List Todo :=
  let f1 := match q.completed with
    | none => todos
    | some c => todos.filter (fun t => t.completed == (c == "true"))
  let f2 := match q.priority with
    | none => f1
    | some p => if p != "" && p != "all" then f1.filter (fun t => t.priority.toStr == p) else f1
  match q.search with
  | none => f2
  | some sr =>
    if sr != "" then f2.filter (fun t => jsIncludes (jsToLower t.text) (jsToLower sr)) else f2

/-- The sort comparator of the list handler, as the relation `a before b`:
the comparator returns `weight(b) - weight(a)` when the weights differ and
`date(b) - date(a)` otherwise, so `a` precedes `b` when the comparator value
is at most zero. -/
def Todo.le (a b : Todo) : Prop :=
  if a.priority.weight = b.priority.weight then b.createdAt ≤ a.createdAt
  else b.priority.weight < a.priority.weight

instance : DecidableRel Todo.le := fun a b => by
  unfold Todo.le
  exact inferInstance

instance : IsTotal Todo Todo.le := by
  constructor
  intro a b
  unfold Todo.le
  split <;> split <;> omega

instance : IsTrans Todo Todo.le := by
  constructor
  intro a b c hab hbc
  unfold Todo.le at hab hbc ⊢
  split at hab <;> split at hbc <;> split <;> omega

/-- GET /api/todos: filter, then sort (stable, as JS Array sort is); returns
the data, its count, and the unfiltered total. -/
def listTodos (q : ListQuery) (s : StoreState) : List Todo × Nat × Nat :=
  let sorted := (applyFilters q s.todos).insertionSort Todo.le
  (sorted, sorted.length, s.todos.length)

/-- GET /api/todos/:id with an already parsed id. -/
def getTodo (idOpt : Option Int) (s : StoreState) : Except ApiError Todo :=
  match s.todos.find? (matchesId idOpt) with
  | some t => .ok t
  | none => .error .NotFound

/-- The record built by the create handler: the allocated id, the trimmed
text, not completed, the validated priority, both timestamps now. -/
def mkNewTodo (text : String) (pr : Priority) (now : Nat) (s : StoreState) : Todo :=
  { id := s.nextId, text := jsTrim text, completed := false, priority := pr,
    createdAt := now, updatedAt := now }

/-- POST /api/todos: validations in source order (falsy or trim-empty text;
raw length over 100; priority, defaulted to medium, outside the enum), then
allocate `nextId`, store the trimmed text, and append. -/
def createTodo (textB : Option String) (priorityB : Option String) (now : Nat)
    (s : StoreState) : Except ApiError (Todo × StoreState) :=
  match textB with
  | none => .error .InvalidInput
  | some text =>
    if jsTrim text == "" then .error .InvalidInput
    else if 100 < utf16Length text then .error .InvalidInput
    else
      match Priority.ofStr? (priorityB.getD "medium") with
      | none => .error .InvalidInput
      | some pr =>
        .ok (mkNewTodo text pr now s,
          { todos := s.todos ++ [mkNewTodo text pr now s], nextId := s.nextId + 1 })

/-- Body of a PUT request: any subset of text, completed, priority. -/
structure Patch where
  text : Option String
  completed : Option Bool
  priority : Option String
deriving DecidableEq, Repr

/-- The object spread in the update handler: fields present in the patch
overwrite (text trimmed, priority parsed — validation has already ensured it
parses), absent fields keep their prior values, `updatedAt` is refreshed. -/
def mergeTodo (p : Patch) (now : Nat) (t : Todo) : Todo :=
  { id := t.id
    text := (p.text.map jsTrim).getD t.text
    completed := p.completed.getD t.completed
    priority := (p.priority.bind Priority.ofStr?).getD t.priority
    createdAt := t.createdAt
    updatedAt := now }

/-- Replace the first element satisfying `q` by its image under `f`,
returning the image and the new list; `none` when nothing matches. Models
`findIndex` plus assignment at that index. -/
def updateFirst (q : α → Bool) (f : α → α) : List α → Option (α × List α)
  | [] => none
  | x :: xs =>
    if q x then some (f x, f x :: xs)
    else (updateFirst q f xs).map (fun r => (r.1, x :: r.2))

/-- Remove the first element satisfying `q`, returning it and the rest;
models `findIndex` plus `splice(index, 1)`. -/
def removeFirst (q : α → Bool) : List α → Option (α × List α)
  | [] => none
  | x :: xs =>
    if q x then some (x, xs)
    else (removeFirst q xs).map (fun r => (r.1, x :: r.2))

/-- PUT /api/todos/:id: the not-found check comes first (findIndex), then the
text validations (trim-empty, raw length over 100), then the priority
validation, and only then the merge is stored. -/
def updateTodo (idOpt : Option Int) (p : Patch) (now : Nat) (s : StoreState) :
    Except ApiError (Todo × StoreState) :=
  match updateFirst (matchesId idOpt) (mergeTodo p now) s.todos with
  | none => .error .NotFound
  | some (t, rest) =>
    if p.text.any (fun tx => jsTrim tx == "") then .error .InvalidInput
    else if p.text.any (fun tx => decide (100 < utf16Length tx)) then .error .InvalidInput
    else if p.priority.any (fun pr => (Priority.ofStr? pr).isNone) then .error .InvalidInput
    else .ok (t, { s with todos := rest })

/-- DELETE /api/todos/:id. -/
def deleteTodo (idOpt : Option Int) (s : StoreState) : Except ApiError (Todo × StoreState) :=
  match removeFirst (matchesId idOpt) s.todos with
  | none => .error .NotFound
  | some (t, rest) => .ok (t, { s with todos := rest })

/-- DELETE /api/todos: with a `completed` query value, remove the records
whose completed state equals `completed === 'true'` and keep `nextId`; with
no query value, clear everything and reset `nextId` to 1. Returns the
deleted count and the new state. -/
def deleteAllTodos (completedQ : Option String) (s : StoreState) : Nat × StoreState :=
  match completedQ with
  | some c =>
    let isCompleted := c == "true"
    ((s.todos.filter (fun t => t.completed == isCompleted)).length,
      { s with todos := s.todos.filter (fun t => t.completed != isCompleted) })
  | none => (s.todos.length, { todos := [], nextId := 1 })

/-- Body of the stats handler response. -/
structure Stats where
  total : Nat
  completed : Nat
  active : Nat
  completionRate : Nat
  byHigh : Nat
  byMedium : Nat
  byLow : Nat
deriving DecidableEq, Repr

/-- The computation of the stats handler; `completionRate` is
`Math.round(completed / total * 100)` (round half up), `0` for an empty
collection. -/
def statsOf (todos : List Todo) : Stats :=
  let total := todos.length
  let completed := (todos.filter (fun t => t.completed)).length
  { total := total
    completed := completed
    active := total - completed
    completionRate := if 0 < total then (200 * completed + total) / (2 * total) else 0
    byHigh := (todos.filter (fun t => t.priority == Priority.high)).length
    byMedium := (todos.filter (fun t => t.priority == Priority.medium)).length
    byLow := (todos.filter (fun t => t.priority == Priority.low)).length }

/-- One segment of an Express route pattern: a literal or a parameter. -/
inductive Seg
  | lit (s : String)
  | param
deriving DecidableEq, Repr

/-- Whether a pattern segment accepts a path segment. -/
def segMatches : Seg → String → Bool
  | .lit l, s => l == s
  | .param, _ => true

/-- Whether a whole route pattern matches a path. -/
def patMatches (pat : List Seg) (path : List String) : Bool :=
  pat.length == path.length && (List.zip pat path).all (fun ps => segMatches ps.1 ps.2)

/-- Tags for the GET handlers of server.js. -/
inductive GetTag
  | root
  | health
  | listAll
  | getOne
  | stats
deriving DecidableEq, Repr

/-- The GET routes in registration order (server.js lines 61, 74, 86, 135,
343): the parameterised `/api/todos/:id` route is registered before the
`/api/todos/stats` route. -/
def getRoutes : List (List Seg × GetTag) :=
  [ ([], .root),
    ([.lit "api", .lit "health"], .health),
    ([.lit "api", .lit "todos"], .listAll),
    ([.lit "api", .lit "todos", .param], .getOne),
    ([.lit "api", .lit "todos", .lit "stats"], .stats) ]

/-- Express dispatch: the first registered route whose pattern matches wins;
`none` falls through to the 404 handler. -/
def dispatchGet (path : List String) : Option GetTag :=
  (getRoutes.find? (fun rt => patMatches rt.1 path)).map Prod.snd

/-- State-mutating requests, for reasoning about operation sequences
(read-only requests return no state and cannot change it). -/
inductive Op
  | create (textB : Option String) (priorityB : Option String) (now : Nat)
  | update (idParam : String) (patch : Patch) (now : Nat)
  | deleteOne (idParam : String)
  | deleteAll (completedQ : Option String)
deriving DecidableEq, Repr

/-- Effect of one request on the store; a failed request leaves the state
as it was (in the JS code, all error returns precede any mutation). -/
def applyOp : Op → StoreState → StoreState
  | .create tx pr now, s =>
    match createTodo tx pr now s with
    | .ok r => r.2
    | .error _ => s
  | .update idp patch now, s =>
    match updateTodo (parseIntJS idp) patch now s with
    | .ok r => r.2
    | .error _ => s
  | .deleteOne idp, s =>
    match deleteTodo (parseIntJS idp) s with
    | .ok r => r.2
    | .error _ => s
  | .deleteAll q, s => (deleteAllTodos q s).2

/-- Run a sequence of requests left to right. -/
def run (ops : List Op) (s : StoreState) : StoreState :=
  ops.foldl (fun st op => applyOp op st) s

/-- The one operation that resets the id counter: DELETE /api/todos with no
completed query value. -/
def Op.isFullClear : Op → Bool
  | .deleteAll none => true
  | _ => false

/-- The ids handed out by the successful creates along a run, in order. -/
def allocatedIds : List Op → StoreState → List Nat
  | [], _ => []
  | .create tx pr now :: ops, s =>
    match createTodo tx pr now s with
    | .ok r => r.1.id :: allocatedIds ops r.2
    | .error _ => allocatedIds ops s
  | op :: ops, s => allocatedIds ops (applyOp op s)

/-- Store invariant: record ids are pairwise distinct and all below the
counter. -/
def StoreInv (s : StoreState) : Prop :=
  (s.todos.map Todo.id).Nodup ∧ ∀ t ∈ s.todos, t.id < s.nextId

instance {ε α : Type} [DecidableEq ε] [DecidableEq α] : DecidableEq (Except ε α) := fun a b =>
  match a, b with
  | .ok x, .ok y =>
    if h : x = y then .isTrue (by rw [h]) else .isFalse (by intro hc; cases hc; exact h rfl)
  | .ok _, .error _ => .isFalse (by intro hc; cases hc)
  | .error _, .ok _ => .isFalse (by intro hc; cases hc)
  | .error e, .error f =>
    if h : e = f then .isTrue (by rw [h]) else .isFalse (by intro hc; cases hc; exact h rfl)

/-- A text whose raw length is 101 but whose trimmed length is 1: it
separates the trimmed-length reading of the length check from the
raw-length check the code performs. -/
def c2text : String := "a".pushn ' ' 100

/-- A concrete request sequence with no counter reset: three creates and a
delete, exercising id allocation. -/
def demoOps : List Op :=
  [ .create (some "buy milk") none 10,
    .create (some "walk dog") none 11,
    .deleteOne "4",
    .create (some "call home") none 12 ]

/-! Helper lemmas about the operations. -/

theorem createTodo_ok_spec {tx : Option String} {prB : Option String} {now : Nat}
    {s : StoreState} {t : Todo} {s2 : StoreState}
    (h : createTodo tx prB now s = .ok (t, s2)) :
    t.id = s.nextId ∧ s2.nextId = s.nextId + 1 ∧ s2.todos = s.todos ++ [t] := by
  unfold createTodo at h
  split at h
  · exact absurd h (by simp)
  · split at h
    · exact absurd h (by simp)
    · split at h
      · exact absurd h (by simp)
      · split at h
        · exact absurd h (by simp)
        · rw [Except.ok.injEq, Prod.mk.injEq] at h
          obtain ⟨ht, hs⟩ := h
          subst ht
          subst hs
          exact ⟨rfl, rfl, rfl⟩

theorem createTodo_error_of_bad_priority (tx : Option String) (p : String) (now : Nat)
    (s : StoreState) (hp : Priority.ofStr? p = none) :
    createTodo tx (some p) now s = .error .InvalidInput := by
  unfold createTodo
  split
  · rfl
  · split
    · rfl
    · split
      · rfl
      · simp only [Option.getD_some]
        rw [hp]

theorem updateFirst_none_iff {α : Type} (q : α → Bool) (f : α → α) :
    ∀ l : List α, updateFirst q f l = none ↔ l.any q = false := by
  intro l
  induction l with
  | nil => simp [updateFirst]
  | cons x xs ih =>
    by_cases h : q x
    · simp [updateFirst, h]
    · simp [updateFirst, h, ih]

theorem removeFirst_none_iff {α : Type} (q : α → Bool) :
    ∀ l : List α, removeFirst q l = none ↔ l.any q = false := by
  intro l
  induction l with
  | nil => simp [removeFirst]
  | cons x xs ih =>
    by_cases h : q x
    · simp [removeFirst, h]
    · simp [removeFirst, h, ih]

theorem updateFirst_eq_some {α : Type} {q : α → Bool} {f : α → α} :
    ∀ {l : List α} {a : α} {l2 : List α}, updateFirst q f l = some (a, l2) →
      ∃ x ∈ l, q x = true ∧ a = f x := by
  intro l
  induction l with
  | nil => intro a l2 h; simp [updateFirst] at h
  | cons x xs ih =>
    intro a l2 h
    by_cases hq : q x
    · simp only [updateFirst, if_pos hq, Option.some.injEq, Prod.mk.injEq] at h
      exact ⟨x, List.mem_cons_self x xs, hq, h.1.symm⟩
    · simp only [updateFirst, if_neg hq, Option.map_eq_some'] at h
      obtain ⟨⟨b, l3⟩, hb, hba⟩ := h
      rw [Prod.mk.injEq] at hba
      obtain ⟨y, hy, hqy, hay⟩ := ih hb
      exact ⟨y, List.mem_cons_of_mem _ hy, hqy, by rw [← hba.1]; exact hay⟩

theorem updateFirst_map {α β : Type} (q : α → Bool) (f : α → α) (g : α → β)
    (hg : ∀ x, g (f x) = g x) :
    ∀ {l : List α} {a : α} {l2 : List α}, updateFirst q f l = some (a, l2) →
      l2.map g = l.map g := by
  intro l
  induction l with
  | nil => intro a l2 h; simp [updateFirst] at h
  | cons x xs ih =>
    intro a l2 h
    by_cases hq : q x
    · simp only [updateFirst, if_pos hq, Option.some.injEq, Prod.mk.injEq] at h
      rw [← h.2]
      simp [hg]
    · simp only [updateFirst, if_neg hq, Option.map_eq_some'] at h
      obtain ⟨⟨b, l3⟩, hb, hba⟩ := h
      rw [Prod.mk.injEq] at hba
      rw [← hba.2]
      simp [ih hb]

theorem removeFirst_sublist {α : Type} {q : α → Bool} :
    ∀ {l : List α} {a : α} {l2 : List α}, removeFirst q l = some (a, l2) →
      l2.Sublist l := by
  intro l
  induction l with
  | nil => intro a l2 h; simp [removeFirst] at h
  | cons x xs ih =>
    intro a l2 h
    by_cases hq : q x
    · simp only [removeFirst, if_pos hq, Option.some.injEq, Prod.mk.injEq] at h
      rw [← h.2]
      exact List.sublist_cons_self x xs
    · simp only [removeFirst, if_neg hq, Option.map_eq_some'] at h
      obtain ⟨⟨b, l3⟩, hb, hba⟩ := h
      rw [Prod.mk.injEq] at hba
      rw [← hba.2]
      exact List.Sublist.cons₂ x (ih hb)

theorem updateTodo_ok_spec {idOpt : Option Int} {p : Patch} {now : Nat}
    {s : StoreState} {t : Todo} {s2 : StoreState}
    (h : updateTodo idOpt p now s = .ok (t, s2)) :
    s2.nextId = s.nextId ∧ s2.todos.map Todo.id = s.todos.map Todo.id ∧
      ∃ old ∈ s.todos, matchesId idOpt old = true ∧ t = mergeTodo p now old := by
  unfold updateTodo at h
  split at h
  · exact absurd h (by simp)
  · rename_i t2 rest2 heq
    split at h
    · exact absurd h (by simp)
    · split at h
      · exact absurd h (by simp)
      · split at h
        · exact absurd h (by simp)
        · rw [Except.ok.injEq, Prod.mk.injEq] at h
          obtain ⟨ht, hs⟩ := h
          subst ht
          subst hs
          refine ⟨rfl, updateFirst_map (matchesId idOpt) (mergeTodo p now) Todo.id
            (fun x => rfl) heq, ?_⟩
          obtain ⟨old, hold, hq, ha⟩ := updateFirst_eq_some heq
          exact ⟨old, hold, hq, ha⟩

theorem deleteTodo_ok_spec {idOpt : Option Int} {s : StoreState} {t : Todo} {s2 : StoreState}
    (h : deleteTodo idOpt s = .ok (t, s2)) :
    s2.nextId = s.nextId ∧ s2.todos.Sublist s.todos := by
  unfold deleteTodo at h
  cases hu : removeFirst (matchesId idOpt) s.todos with
  | none => rw [hu] at h; exact absurd h (by simp)
  | some r =>
    obtain ⟨a, rest⟩ := r
    rw [hu] at h
    rw [Except.ok.injEq, Prod.mk.injEq] at h
    obtain ⟨ht, hs⟩ := h
    subst hs
    exact ⟨rfl, removeFirst_sublist hu⟩

theorem matchesId_none (t : Todo) : matchesId none t = false := rfl

theorem storeInv_initialState (t0 : Nat) : StoreInv (initialState t0) := by
  constructor
  · show ([1, 2, 3] : List Nat).Nodup
    decide
  · intro t ht
    simp only [initialState, List.mem_cons, List.not_mem_nil, or_false] at ht
    rcases ht with h | h | h <;> subst h <;> norm_num [initialState]

theorem applyOp_nextId_mono (op : Op) (s : StoreState) (h : op.isFullClear = false) :
    s.nextId ≤ (applyOp op s).nextId := by
  cases op with
  | create tx pr now =>
    simp only [applyOp]
    cases hc : createTodo tx pr now s with
    | error e => exact Nat.le_refl _
    | ok r =>
      obtain ⟨t, s2⟩ := r
      have hs := createTodo_ok_spec hc
      show s.nextId ≤ s2.nextId
      omega
  | update idp patch now =>
    simp only [applyOp]
    cases hm : updateTodo (parseIntJS idp) patch now s with
    | error e => exact Nat.le_refl _
    | ok r =>
      obtain ⟨t, s2⟩ := r
      have hs := updateTodo_ok_spec hm
      show s.nextId ≤ s2.nextId
      omega
  | deleteOne idp =>
    simp only [applyOp]
    cases hm : deleteTodo (parseIntJS idp) s with
    | error e => exact Nat.le_refl _
    | ok r =>
      obtain ⟨t, s2⟩ := r
      have hs := deleteTodo_ok_spec hm
      show s.nextId ≤ s2.nextId
      omega
  | deleteAll q =>
    cases q with
    | none => simp [Op.isFullClear] at h
    | some c => exact Nat.le_refl _

theorem storeInv_applyOp (op : Op) (s : StoreState) (h : StoreInv s) :
    StoreInv (applyOp op s) := by
  obtain ⟨hnd, hlt⟩ := h
  cases op with
  | create tx pr now =>
    simp only [applyOp]
    cases hc : createTodo tx pr now s with
    | error e => exact ⟨hnd, hlt⟩
    | ok r =>
      obtain ⟨t, s2⟩ := r
      obtain ⟨hid, hnext, htodos⟩ := createTodo_ok_spec hc
      show StoreInv s2
      constructor
      · rw [htodos, List.map_append]
        refine List.Nodup.append hnd (List.nodup_singleton _) ?_
        intro x hx hx2
        simp only [List.map_cons, List.map_nil, List.mem_singleton] at hx2
        subst hx2
        obtain ⟨u, hu, hui⟩ := List.mem_map.mp hx
        have := hlt u hu
        omega
      · intro u hu
        rw [htodos] at hu
        rw [hnext]
        rcases List.mem_append.mp hu with h1 | h1
        · have := hlt u h1
          omega
        · simp only [List.mem_singleton] at h1
          subst h1
          omega
  | update idp patch now =>
    simp only [applyOp]
    cases hm : updateTodo (parseIntJS idp) patch now s with
    | error e => exact ⟨hnd, hlt⟩
    | ok r =>
      obtain ⟨t, s2⟩ := r
      obtain ⟨hnext, hmap, _⟩ := updateTodo_ok_spec hm
      show StoreInv s2
      constructor
      · rw [hmap]
        exact hnd
      · intro u hu
        have hmem : u.id ∈ List.map Todo.id s2.todos := List.mem_map_of_mem Todo.id hu
        rw [hmap] at hmem
        obtain ⟨v, hv, hvi⟩ := List.mem_map.mp hmem
        rw [hnext, ← hvi]
        exact hlt v hv
  | deleteOne idp =>
    simp only [applyOp]
    cases hm : deleteTodo (parseIntJS idp) s with
    | error e => exact ⟨hnd, hlt⟩
    | ok r =>
      obtain ⟨t, s2⟩ := r
      obtain ⟨hnext, hsub⟩ := deleteTodo_ok_spec hm
      show StoreInv s2
      constructor
      · exact List.Nodup.sublist (hsub.map Todo.id) hnd
      · intro u hu
        rw [hnext]
        exact hlt u (hsub.subset hu)
  | deleteAll q =>
    cases q with
    | none =>
      show StoreInv { todos := [], nextId := 1 }
      exact ⟨List.nodup_nil, by intro t ht; simp at ht⟩
    | some c =>
      constructor
      · exact List.Nodup.sublist ((List.filter_sublist _).map Todo.id) hnd
      · intro u hu
        exact hlt u ((List.filter_sublist _).subset hu)

theorem storeInv_run (ops : List Op) : ∀ s : StoreState, StoreInv s → StoreInv (run ops s) := by
  induction ops with
  | nil => intro s h; exact h
  | cons op ops ih =>
    intro s h
    exact ih (applyOp op s) (storeInv_applyOp op s h)

theorem allocatedIds_ge (ops : List Op) : ∀ s : StoreState,
    (∀ op ∈ ops, op.isFullClear = false) →
    ∀ i ∈ allocatedIds ops s, s.nextId ≤ i := by
  induction ops with
  | nil => intro s h i hi; simp [allocatedIds] at hi
  | cons op ops ih =>
    intro s h i hi
    have hop : op.isFullClear = false := h op (List.mem_cons_self op ops)
    have hops : ∀ o ∈ ops, o.isFullClear = false := fun o ho => h o (List.mem_cons_of_mem _ ho)
    have hmono := applyOp_nextId_mono op s hop
    cases op with
    | create tx pr now =>
      cases hc : createTodo tx pr now s with
      | error e =>
        rw [show allocatedIds (Op.create tx pr now :: ops) s = allocatedIds ops s from by
          simp [allocatedIds, hc]] at hi
        exact ih s hops i hi
      | ok r =>
        obtain ⟨t, s2⟩ := r
        obtain ⟨hid, hnext, _⟩ := createTodo_ok_spec hc
        rw [show allocatedIds (Op.create tx pr now :: ops) s = t.id :: allocatedIds ops s2 from by
          simp [allocatedIds, hc]] at hi
        rcases List.mem_cons.mp hi with h1 | h1
        · omega
        · have := ih s2 hops i h1
          omega
    | update idp patch now =>
      have := ih (applyOp (Op.update idp patch now) s) hops i hi
      omega
    | deleteOne idp =>
      have := ih (applyOp (Op.deleteOne idp) s) hops i hi
      omega
    | deleteAll q =>
      have := ih (applyOp (Op.deleteAll q) s) hops i hi
      omega

theorem allocatedIds_pairwise (ops : List Op) : ∀ s : StoreState,
    (∀ op ∈ ops, op.isFullClear = false) →
    List.Pairwise (fun i j => i < j) (allocatedIds ops s) := by
  induction ops with
  | nil => intro s h; simp [allocatedIds]
  | cons op ops ih =>
    intro s h
    have hops : ∀ o ∈ ops, o.isFullClear = false := fun o ho => h o (List.mem_cons_of_mem _ ho)
    cases op with
    | create tx pr now =>
      cases hc : createTodo tx pr now s with
      | error e =>
        rw [show allocatedIds (Op.create tx pr now :: ops) s = allocatedIds ops s from by
          simp [allocatedIds, hc]]
        exact ih s hops
      | ok r =>
        obtain ⟨t, s2⟩ := r
        obtain ⟨hid, hnext, _⟩ := createTodo_ok_spec hc
        rw [show allocatedIds (Op.create tx pr now :: ops) s = t.id :: allocatedIds ops s2 from by
          simp [allocatedIds, hc]]
        refine List.Pairwise.cons ?_ (ih s2 hops)
        intro j hj
        have := allocatedIds_ge ops s2 hops j hj
        omega
    | update idp patch now => exact ih (applyOp (Op.update idp patch now) s) hops
    | deleteOne idp => exact ih (applyOp (Op.deleteOne idp) s) hops
    | deleteAll q => exact ih (applyOp (Op.deleteAll q) s) hops

/-- C9: every sequence of requests started from the seeded state keeps all
record ids distinct (with all ids below the counter, the invariant that
makes this inductive), the invariant is preserved by every single request
from any state satisfying it, and along any request sequence containing no
unfiltered bulk delete (the only counter reset) the ids handed out by
successful creates are strictly increasing, so an id is never reused after
a deletion. -/
theorem C9_id_uniqueness_and_monotonic_allocation :
    (∀ t0 : Nat, StoreInv (initialState t0))
  ∧ (∀ op s, StoreInv s → StoreInv (applyOp op s))
  ∧ (∀ t0 ops, ((run ops (initialState t0)).todos.map Todo.id).Nodup)
  ∧ (∀ s ops, (∀ op ∈ ops, op.isFullClear = false) →
      List.Pairwise (fun i j => i < j) (allocatedIds ops s)) := by
  refine ⟨storeInv_initialState, fun op s h => storeInv_applyOp op s h, ?_, ?_⟩
  · intro t0 ops
    exact (storeInv_run ops (initialState t0) (storeInv_initialState t0)).1
  · intro s ops h
    exact allocatedIds_pairwise ops s h

theorem C9_witness :
    StoreInv (initialState 0) ∧
    List.Pairwise (fun i j => i < j) (allocatedIds demoOps (initialState 0)) :=
  ⟨C9_id_uniqueness_and_monotonic_allocation.1 0,
   C9_id_uniqueness_and_monotonic_allocation.2.2.2 (initialState 0) demoOps (by decide)⟩

/-- C4: the seeded collection holds exactly three records with ids 1, 2, 3
(ids 1 and 3 high priority and not completed, id 2 medium and completed),
the id counter starts at 4, and any successful first create in a fresh
process allocates id 4. -/
theorem C4_seeded_initial_state : ∀ t0 : Nat,
    (initialState t0).nextId = 4
  ∧ (initialState t0).todos.map (fun t => (t.id, t.priority, t.completed))
      = [(1, Priority.high, false), (2, Priority.medium, true), (3, Priority.high, false)]
  ∧ (initialState t0).todos ≠ []
  ∧ (∀ tx pr now t s2, createTodo tx pr now (initialState t0) = .ok (t, s2) → t.id = 4) := by
  intro t0
  refine ⟨rfl, rfl, by simp [initialState], ?_⟩
  intro tx pr now t s2 h
  exact (createTodo_ok_spec h).1

theorem C4_witness :
    ({ id := 4, text := "buy milk", completed := false, priority := Priority.medium,
       createdAt := 10, updatedAt := 10 } : Todo).id = 4 :=
  (C4_seeded_initial_state 0).2.2.2 (some "buy milk") none 10
    { id := 4, text := "buy milk", completed := false, priority := Priority.medium,
      createdAt := 10, updatedAt := 10 }
    { todos := (initialState 0).todos ++
        [{ id := 4, text := "buy milk", completed := false, priority := Priority.medium,
           createdAt := 10, updatedAt := 10 }], nextId := 5 }
    (by decide)

/-- C5: the unfiltered bulk delete empties the collection, resets the
counter to 1 (so a following create allocates id 1) and reports the prior
total; the filtered bulk delete removes exactly the records whose completed
state equals the filter, reports how many, and leaves the counter alone (a
following create allocates the prior counter value). -/
theorem C5_deleteAll_filter_and_counter : ∀ s : StoreState,
    ((deleteAllTodos none s).1 = s.todos.length
      ∧ (deleteAllTodos none s).2 = { todos := [], nextId := 1 }
      ∧ (∀ tx pr now t s2, createTodo tx pr now (deleteAllTodos none s).2 = .ok (t, s2) →
          t.id = 1))
  ∧ (∀ cq : String,
      (deleteAllTodos (some cq) s).1
          = (s.todos.filter (fun t => t.completed == (cq == "true"))).length
      ∧ (deleteAllTodos (some cq) s).2.todos
          = s.todos.filter (fun t => t.completed != (cq == "true"))
      ∧ (deleteAllTodos (some cq) s).2.nextId = s.nextId
      ∧ (∀ tx pr now t s2, createTodo tx pr now (deleteAllTodos (some cq) s).2 = .ok (t, s2) →
          t.id = s.nextId)) := by
  intro s
  constructor
  · refine ⟨rfl, rfl, ?_⟩
    intro tx pr now t s2 h
    exact (createTodo_ok_spec h).1
  · intro cq
    refine ⟨rfl, rfl, rfl, ?_⟩
    intro tx pr now t s2 h
    exact (createTodo_ok_spec h).1

theorem C5_witness :
    (deleteAllTodos none (initialState 0)).1 = (initialState 0).todos.length
    ∧ ({ id := 1, text := "milk", completed := false, priority := Priority.medium,
         createdAt := 7, updatedAt := 7 } : Todo).id = 1 :=
  ⟨(C5_deleteAll_filter_and_counter (initialState 0)).1.1,
   (C5_deleteAll_filter_and_counter (initialState 0)).1.2.2 (some "milk") none 7
     { id := 1, text := "milk", completed := false, priority := Priority.medium,
       createdAt := 7, updatedAt := 7 }
     { todos := [{ id := 1, text := "milk", completed := false, priority := Priority.medium,
                   createdAt := 7, updatedAt := 7 }], nextId := 2 }
     (by decide)⟩

theorem filter_priority_partition : ∀ todos : List Todo,
    (todos.filter (fun t => t.priority == Priority.high)).length
      + (todos.filter (fun t => t.priority == Priority.medium)).length
      + (todos.filter (fun t => t.priority == Priority.low)).length = todos.length := by
  intro todos
  induction todos with
  | nil => rfl
  | cons t ts ih =>
    cases h : t.priority <;> simp [List.filter_cons, h] <;> omega

theorem find?_matchesId_none (l : List Todo) : l.find? (matchesId none) = none := by
  apply List.find?_eq_none.mpr
  intro t ht
  simp [matchesId]

theorem getTodo_none (s : StoreState) : getTodo none s = .error .NotFound := by
  unfold getTodo
  rw [find?_matchesId_none]

theorem updateTodo_none (p : Patch) (now : Nat) (s : StoreState) :
    updateTodo none p now s = .error .NotFound := by
  unfold updateTodo
  rw [show updateFirst (matchesId none) (mergeTodo p now) s.todos = none from
    (updateFirst_none_iff _ _ _).mpr (by simp [matchesId])]

theorem deleteTodo_none (s : StoreState) : deleteTodo none s = .error .NotFound := by
  unfold deleteTodo
  rw [show removeFirst (matchesId none) s.todos = none from
    (removeFirst_none_iff _ _).mpr (by simp [matchesId])]

/-- C1 (documents the routing slip): the path /api/todos/stats is captured
by the earlier-registered /api/todos/:id route even though the stats
pattern also matches, and the Get-one handler with the unparsable id
"stats" answers NotFound on every state; the stats computation itself,
which that request never reaches, does return the claimed aggregate body
(total the collection size, completed the completed count, active their
difference, and the three priority counts partitioning the collection). -/
theorem C1_stats_route_shadowed :
    dispatchGet ["api", "todos", "stats"] = some GetTag.getOne
  ∧ patMatches [Seg.lit "api", Seg.lit "todos", Seg.lit "stats"] ["api", "todos", "stats"] = true
  ∧ (∀ s : StoreState, getTodo (parseIntJS "stats") s = .error .NotFound)
  ∧ (∀ todos : List Todo,
      (statsOf todos).total = todos.length
      ∧ (statsOf todos).completed = (todos.filter (fun t => t.completed)).length
      ∧ (statsOf todos).active = (statsOf todos).total - (statsOf todos).completed
      ∧ (statsOf todos).byHigh + (statsOf todos).byMedium + (statsOf todos).byLow
          = todos.length) := by
  refine ⟨rfl, rfl, ?_, ?_⟩
  · intro s
    rw [show parseIntJS "stats" = none from by decide]
    exact getTodo_none s
  · intro todos
    exact ⟨rfl, rfl, rfl, filter_priority_partition todos⟩

/-- C10: a path id that parseInt cannot read at all (NaN) makes Get, Update
and Delete answer NotFound and leave the state untouched; a numeric prefix
such as in "12abc" is read as that prefix, so the request behaves exactly
like one for id 12. -/
theorem C10_nonnumeric_ids_not_found :
    (∀ p : String, parseIntJS p = none → ∀ s : StoreState,
        getTodo (parseIntJS p) s = .error .NotFound
      ∧ (∀ patch now, updateTodo (parseIntJS p) patch now s = .error .NotFound
          ∧ applyOp (.update p patch now) s = s)
      ∧ deleteTodo (parseIntJS p) s = .error .NotFound
      ∧ applyOp (.deleteOne p) s = s)
  ∧ parseIntJS "stats" = none
  ∧ parseIntJS "abc" = none
  ∧ parseIntJS "12abc" = some 12
  ∧ (∀ s, getTodo (parseIntJS "12abc") s = getTodo (some 12) s) := by
  refine ⟨?_, by decide, by decide, by decide, fun s => rfl⟩
  intro p hp s
  refine ⟨?_, ?_, ?_, ?_⟩
  · rw [hp]
    exact getTodo_none s
  · intro patch now
    constructor
    · rw [hp]
      exact updateTodo_none patch now s
    · simp only [applyOp]
      rw [hp, updateTodo_none]
  · rw [hp]
    exact deleteTodo_none s
  · simp only [applyOp]
    rw [hp, deleteTodo_none]

theorem C10_witness :
    parseIntJS "abc" = none
    ∧ getTodo (parseIntJS "abc") (initialState 0) = .error .NotFound
    ∧ deleteTodo (parseIntJS "abc") (initialState 0) = .error .NotFound :=
  ⟨by decide,
   (C10_nonnumeric_ids_not_found.1 "abc" (by decide) (initialState 0)).1,
   (C10_nonnumeric_ids_not_found.1 "abc" (by decide) (initialState 0)).2.2.1⟩

/-- C7: for every filter and every state, the list handler returns a
permutation of the filtered records that is pairwise ordered by priority
weight descending and, at equal weight, by creation time descending
(newest first). -/
theorem C7_sort_order : ∀ (q : ListQuery) (s : StoreState),
    List.Perm (listTodos q s).1 (applyFilters q s.todos)
  ∧ List.Pairwise (fun a b : Todo =>
      b.priority.weight < a.priority.weight ∨
        (a.priority.weight = b.priority.weight ∧ b.createdAt ≤ a.createdAt))
      (listTodos q s).1 := by
  intro q s
  constructor
  · exact List.perm_insertionSort Todo.le (applyFilters q s.todos)
  · have hs : List.Pairwise Todo.le ((applyFilters q s.todos).insertionSort Todo.le) :=
      List.sorted_insertionSort Todo.le (applyFilters q s.todos)
    refine List.Pairwise.imp ?_ hs
    intro a b hab
    unfold Todo.le at hab
    by_cases hw : a.priority.weight = b.priority.weight
    · rw [if_pos hw] at hab
      exact Or.inr ⟨hw, hab⟩
    · rw [if_neg hw] at hab
      exact Or.inl hab

/-- C3 counterexample: with the unrecognized priority value "banana" the
filter is applied (matching nothing) instead of bypassed: on the seeded
state the data is empty while the same call with no priority value returns
a non-empty result. -/
theorem C3_counterexample :
    (listTodos ⟨none, some "banana", none⟩ (initialState 0)).1 = []
    ∧ (listTodos ⟨none, none, none⟩ (initialState 0)).1 ≠ [] := by
  exact ⟨by decide, by decide⟩

theorem applyFilters_unmatched_priority {p : String}
    (hcond : (p != "" && p != "all") = true)
    (hnpr : ∀ pr : Priority, pr.toStr ≠ p) (c sr : Option String) (todos : List Todo) :
    applyFilters ⟨c, some p, sr⟩ todos = [] := by
  have hfilt : ∀ l : List Todo, l.filter (fun t => t.priority.toStr == p) = [] := by
    intro l
    refine List.filter_eq_nil_iff.mpr ?_
    intro t ht
    simp [hnpr t.priority]
  unfold applyFilters
  simp only [hcond, if_true, hfilt]
  cases sr with
  | none => rfl
  | some sr0 =>
    by_cases h : sr0 != ""
    · simp [h]
    · simp [h]

/-- C3 amended: the priority filter is bypassed only for an absent or empty
value or the sentinel "all"; every other value is matched literally against
the stored priorities, so a value outside the three enum strings yields an
empty data list instead of being ignored. -/
theorem C3_amended_priority_filter :
    (∀ c sr s, listTodos ⟨c, some "all", sr⟩ s = listTodos ⟨c, none, sr⟩ s
      ∧ listTodos ⟨c, some "", sr⟩ s = listTodos ⟨c, none, sr⟩ s)
  ∧ (∀ p c sr s, p ≠ "" → p ≠ "all" → (∀ pr : Priority, pr.toStr ≠ p) →
      (listTodos ⟨c, some p, sr⟩ s).1 = []) := by
  constructor
  · intro c sr s
    exact ⟨rfl, rfl⟩
  · intro p c sr s hne hnall hnpr
    have hcond : (p != "" && p != "all") = true := by
      simp [bne_iff_ne, hne, hnall]
    show ((applyFilters ⟨c, some p, sr⟩ s.todos).insertionSort Todo.le) = []
    rw [applyFilters_unmatched_priority hcond hnpr c sr s.todos]
    rfl

theorem C3_witness :
    (listTodos ⟨none, some "banana", none⟩ (initialState 0)).1 = [] :=
  C3_amended_priority_filter.2 "banana" none none (initialState 0)
    (by decide) (by decide) (by intro pr; cases pr <;> decide)

/-- C2 counterexample: a text of one letter followed by 100 spaces has a
trimmed length of 1 (well under 100) and no priority is supplied, so by
the claim it passes validation, yet the create handler rejects it with
InvalidInput because its length check reads the raw, untrimmed text. -/
theorem C2_counterexample :
    jsTrim c2text ≠ "" ∧ utf16Length (jsTrim c2text) ≤ 100
    ∧ createTodo (some c2text) none 0 (initialState 0) = .error .InvalidInput := by
  exact ⟨by decide, by decide, by decide⟩

theorem createTodo_ok_iff (text : String) (prB : Option String) (now : Nat) (s : StoreState) :
    (∃ r, createTodo (some text) prB now s = .ok r) ↔
      ¬(jsTrim text = "" ∨ 100 < utf16Length text
        ∨ Option.any (fun p0 => (Priority.ofStr? p0).isNone) prB = true) := by
  by_cases h1 : jsTrim text = ""
  · have h1b : (jsTrim text == "") = true := beq_iff_eq.mpr h1
    simp [createTodo, h1b, h1]
  · have h1b : (jsTrim text == "") = false := by
      simp [h1]
    by_cases h2 : 100 < utf16Length text
    · simp [createTodo, h1b, h2, h1]
    · cases prB with
      | none => simp [createTodo, h1b, h2, h1, Priority.ofStr?]
      | some p0 =>
        cases hp : Priority.ofStr? p0 with
        | none => simp [createTodo, h1b, h2, h1, hp]
        | some pr => simp [createTodo, h1b, h2, h1, hp]

theorem updateTodo_ok_iff (idOpt : Option Int) (p : Patch) (now : Nat) (s : StoreState)
    (hex : s.todos.any (matchesId idOpt) = true) :
    (∃ r, updateTodo idOpt p now s = .ok r) ↔
      ¬(Option.any (fun tx => jsTrim tx == "") p.text = true
        ∨ Option.any (fun tx => decide (100 < utf16Length tx)) p.text = true
        ∨ Option.any (fun p0 => (Priority.ofStr? p0).isNone) p.priority = true) := by
  cases hu : updateFirst (matchesId idOpt) (mergeTodo p now) s.todos with
  | none =>
    rw [(updateFirst_none_iff _ _ _).mp hu] at hex
    exact absurd hex (by simp)
  | some r =>
    obtain ⟨a, rest⟩ := r
    unfold updateTodo
    rw [hu]
    by_cases h1 : Option.any (fun tx => jsTrim tx == "") p.text = true
    · simp [h1]
    · by_cases h2 : Option.any (fun tx => decide (100 < utf16Length tx)) p.text = true
      · simp [h1, h2]
      · by_cases h3 : Option.any (fun p0 => (Priority.ofStr? p0).isNone) p.priority = true
        · simp [h1, h2, h3]
        · simp [h1, h2, h3]

/-- C2 amended: Create and Update reject with InvalidInput exactly when the
text is empty or whitespace-only after trimming, or the RAW (untrimmed)
text exceeds 100 UTF-16 units, or a supplied priority is outside the enum;
the length check reads the untrimmed text, so surrounding whitespace does
count toward the limit even though it is stripped before storing. -/
theorem C2_length_check_untrimmed :
    (∀ text prB now s,
      (∃ r, createTodo (some text) prB now s = .ok r) ↔
        ¬(jsTrim text = "" ∨ 100 < utf16Length text
          ∨ Option.any (fun p0 => (Priority.ofStr? p0).isNone) prB = true))
  ∧ (∀ idOpt p now s, s.todos.any (matchesId idOpt) = true →
      ((∃ r, updateTodo idOpt p now s = .ok r) ↔
        ¬(Option.any (fun tx => jsTrim tx == "") p.text = true
          ∨ Option.any (fun tx => decide (100 < utf16Length tx)) p.text = true
          ∨ Option.any (fun p0 => (Priority.ofStr? p0).isNone) p.priority = true))) :=
  ⟨createTodo_ok_iff, updateTodo_ok_iff⟩

theorem C2_witness :
    (initialState 0).todos.any (matchesId (some 1)) = true
    ∧ ((∃ r, updateTodo (some 1) ⟨some "ok", none, none⟩ 3 (initialState 0) = .ok r) ↔
        ¬(Option.any (fun tx => jsTrim tx == "") (some "ok") = true
          ∨ Option.any (fun tx => decide (100 < utf16Length tx)) (some "ok") = true
          ∨ Option.any (fun p0 => (Priority.ofStr? p0).isNone) none = true)) :=
  ⟨by decide,
   C2_length_check_untrimmed.2 (some 1) ⟨some "ok", none, none⟩ 3 (initialState 0) (by decide)⟩

/-- C6 counterexample: the invalid priority "urgent" sent in an Update
patch for the absent id 999 is answered with NotFound, not InvalidInput:
the existence check runs before any validation. -/
theorem C6_counterexample :
    Priority.ofStr? "urgent" = none
    ∧ updateTodo (some 999) ⟨none, none, some "urgent"⟩ 0 (initialState 0) = .error .NotFound
    ∧ ApiError.NotFound ≠ ApiError.InvalidInput := by
  exact ⟨by decide, by decide, by decide⟩

/-- C6 amended: a priority outside the enum passed to Create always fails
with InvalidInput; present in an Update patch it fails with InvalidInput
when some record has the target id and with NotFound when none does; in
every case the collection and the id counter are left unchanged and no id
is consumed. -/
theorem C6_invalid_priority_rejected :
    (∀ tx p now s, Priority.ofStr? p = none →
      createTodo tx (some p) now s = .error .InvalidInput
      ∧ applyOp (.create tx (some p) now) s = s)
  ∧ (∀ idp patch now s p0, patch.priority = some p0 → Priority.ofStr? p0 = none →
      updateTodo (parseIntJS idp) patch now s
        = .error (if s.todos.any (matchesId (parseIntJS idp)) then .InvalidInput else .NotFound)
      ∧ applyOp (.update idp patch now) s = s) := by
  constructor
  · intro tx p now s hp
    have h := createTodo_error_of_bad_priority tx p now s hp
    refine ⟨h, ?_⟩
    simp only [applyOp, h]
  · intro idp patch now s p0 hpp hp0
    have herr : updateTodo (parseIntJS idp) patch now s
        = .error (if s.todos.any (matchesId (parseIntJS idp)) then .InvalidInput
                  else .NotFound) := by
      cases hu : updateFirst (matchesId (parseIntJS idp)) (mergeTodo patch now) s.todos with
      | none =>
        have hany := (updateFirst_none_iff _ _ _).mp hu
        unfold updateTodo
        rw [hu, hany]
        simp
      | some r =>
        obtain ⟨a, rest⟩ := r
        have hany : s.todos.any (matchesId (parseIntJS idp)) = true := by
          obtain ⟨x, hx, hqx, _⟩ := updateFirst_eq_some hu
          exact List.any_eq_true.mpr ⟨x, hx, hqx⟩
        unfold updateTodo
        rw [hu, hany]
        by_cases h1 : Option.any (fun tx => jsTrim tx == "") patch.text = true
        · simp [h1]
        · by_cases h2 : Option.any (fun tx => decide (100 < utf16Length tx)) patch.text = true
          · simp [h1, h2]
          · have h3 : Option.any (fun pr => (Priority.ofStr? pr).isNone) patch.priority = true := by
              rw [hpp]
              simp [hp0]
            simp [h1, h2, h3]
    refine ⟨herr, ?_⟩
    simp only [applyOp, herr]

theorem C6_witness :
    (Priority.ofStr? "urgent" = none
      ∧ createTodo (some "write tests") (some "urgent") 5 (initialState 0)
          = .error .InvalidInput
      ∧ applyOp (.create (some "write tests") (some "urgent") 5) (initialState 0)
          = initialState 0)
    ∧ updateTodo (parseIntJS "2") ⟨none, none, some "urgent"⟩ 5 (initialState 0)
        = .error (if (initialState 0).todos.any (matchesId (parseIntJS "2"))
                  then .InvalidInput else .NotFound) :=
  ⟨⟨by decide,
    (C6_invalid_priority_rejected.1 (some "write tests") "urgent" 5 (initialState 0)
      (by decide)).1,
    (C6_invalid_priority_rejected.1 (some "write tests") "urgent" 5 (initialState 0)
      (by decide)).2⟩,
   (C6_invalid_priority_rejected.2 "2" ⟨none, none, some "urgent"⟩ 5 (initialState 0)
      "urgent" rfl (by decide)).1⟩

/-- C8: a successful Update whose patch is only completed-true keeps the
matched record's text, priority, id and creation time, sets completed, and
stamps updatedAt with the request time (which is at least the prior
updatedAt whenever the clock has not gone backwards); in general a
successful Update merges exactly the supplied fields and every absent field
keeps its prior value. -/
theorem C8_update_merge_frame : ∀ idOpt now s t s2,
    (updateTodo idOpt ⟨none, some true, none⟩ now s = .ok (t, s2) →
      ∃ old ∈ s.todos, matchesId idOpt old = true
        ∧ t.text = old.text ∧ t.priority = old.priority ∧ t.id = old.id
        ∧ t.createdAt = old.createdAt ∧ t.completed = true ∧ t.updatedAt = now
        ∧ (old.updatedAt ≤ now → old.updatedAt ≤ t.updatedAt))
  ∧ (∀ p : Patch, updateTodo idOpt p now s = .ok (t, s2) →
      ∃ old ∈ s.todos, matchesId idOpt old = true ∧ t = mergeTodo p now old
        ∧ t.id = old.id ∧ t.createdAt = old.createdAt ∧ t.updatedAt = now
        ∧ (p.text = none → t.text = old.text)
        ∧ (p.completed = none → t.completed = old.completed)
        ∧ (∀ b, p.completed = some b → t.completed = b)
        ∧ (p.priority = none → t.priority = old.priority)) := by
  intro idOpt now s t s2
  constructor
  · intro h
    obtain ⟨_, _, old, hold, hm, ht⟩ := updateTodo_ok_spec h
    subst ht
    exact ⟨old, hold, hm, rfl, rfl, rfl, rfl, rfl, rfl, fun hle => hle⟩
  · intro p h
    obtain ⟨_, _, old, hold, hm, ht⟩ := updateTodo_ok_spec h
    subst ht
    refine ⟨old, hold, hm, rfl, rfl, rfl, rfl, ?_, ?_, ?_, ?_⟩
    · intro hn
      simp [mergeTodo, hn]
    · intro hn
      simp [mergeTodo, hn]
    · intro b hb
      simp [mergeTodo, hb]
    · intro hn
      simp [mergeTodo, hn]

theorem C8_witness :
    ∃ old ∈ (initialState 0).todos, matchesId (some 1) old = true
      ∧ "Node.js 배우기" = old.text
      ∧ Priority.high = old.priority
      ∧ (1 : Nat) = old.id
      ∧ (0 : Nat) = old.createdAt
      ∧ true = true
      ∧ (9 : Nat) = 9
      ∧ (old.updatedAt ≤ 9 → old.updatedAt ≤ 9) :=
  (C8_update_merge_frame (some 1) 9 (initialState 0)
    { id := 1, text := "Node.js 배우기", completed := true, priority := Priority.high,
      createdAt := 0, updatedAt := 9 }
    { todos :=
        [ { id := 1, text := "Node.js 배우기", completed := true, priority := Priority.high,
            createdAt := 0, updatedAt := 9 },
          { id := 2, text := "Express 서버 만들기", completed := true, priority := Priority.medium,
            createdAt := 0, updatedAt := 0 },
          { id := 3, text := "REST API 구현하기", completed := false, priority := Priority.high,
            createdAt := 0, updatedAt := 0 } ],
      nextId := 4 }).1 (by decide)

end TodoServer
